import Mathlib

/-!
Shallow embedding of the deterministic engagement-analysis core of the
youtube-live-comment-scrapper repository (question/answer extraction,
answerer ranking, topic engine, conversation threading, community scoring,
host identification and the orchestrator), together with theorems checking
the natural-language specification against it.

Modelling conventions:
* timestamps are the already-parsed instants in milliseconds
  (the JavaScript code calls `new Date(ts).getTime()` on ISO strings);
* JavaScript numbers are modelled by the rationals, `Math.round` by
  `jsRound` below;
* JavaScript `Map` / `Set` iteration order (insertion order) is modelled by
  association lists and by `firstOccs` (first occurrences, in order);
* `Array.prototype.sort` (stable since ES2019) is modelled by the stable
  `List.insertionSort`.
-/

namespace Scrape

/-- JS `Math.round`: round half toward positive infinity. -/
def jsRound (q : ℚ) : ℤ := ⌊q + 1/2⌋

/-- Auxiliary for `firstOccs`: keep elements not seen before. -/
def firstOccsAux (seen : List String) : List String → List String
  | [] => []
  | a :: l => if a ∈ seen then firstOccsAux seen l else a :: firstOccsAux (a :: seen) l

/-- First occurrences of the elements of a list, in order of first
appearance: the iteration order of a JS `Set`/`Map` built by insertion. -/
def firstOccs (l : List String) : List String := firstOccsAux [] l

/-- Stable sort, ascending in the given key: models the JS
`arr.sort((a, b) => key(a) - key(b))` idiom. -/
def sortByKey {α β : Type} [LinearOrder β] (key : α → β) (l : List α) : List α :=
  @List.insertionSort α (fun a b => key a ≤ key b)
    (fun a b => inferInstanceAs (Decidable (key a ≤ key b))) l

/-- Stable sort, descending in the given key: models the JS
`arr.sort((a, b) => key(b) - key(a))` idiom. -/
def sortByKeyDesc {α β : Type} [LinearOrder β] (key : α → β) (l : List α) : List α :=
  @List.insertionSort α (fun a b => key b ≤ key a)
    (fun a b => inferInstanceAs (Decidable (key b ≤ key a))) l

/-- ASCII lowercasing, modelling JS `toLowerCase` on the ASCII fragment. -/
def strToLower (s : String) : String := String.mk (s.data.map Char.toLower)

/-- JS `trim`: drop whitespace from both ends (on the character list; the
JS string is its character sequence throughout this embedding). -/
def trimChars (cs : List Char) : List Char :=
  ((cs.dropWhile Char.isWhitespace).reverse.dropWhile Char.isWhitespace).reverse

/-- Auxiliary for `wordsOf`: split on whitespace, accumulating the
current (reversed) token. -/
def wordsOfAux (cur : List Char) : List Char → List String
  | [] => if cur.isEmpty then [] else [String.mk cur.reverse]
  | c :: rest =>
    if c.isWhitespace then
      if cur.isEmpty then wordsOfAux [] rest
      else String.mk cur.reverse :: wordsOfAux [] rest
    else wordsOfAux (c :: cur) rest

/-- The nonempty whitespace-separated tokens of a character list: JS
`split(/\s+/)` followed by the empty-token filter. -/
def wordsOf (cs : List Char) : List String := wordsOfAux [] cs

/-- One chat message (`ChatMessage` in `youtube.ts`); the timestamp is the
parsed instant in milliseconds; optional fields get JS-falsy defaults. -/
structure ChatMessage where
  id : String
  author : String
  message : String
  timestamp : ℤ
  profileImageUrl : String := ""
  badges : List String := []
  isHost : Bool := false
deriving Repr

instance : DecidableEq ChatMessage := fun a b =>
  decidable_of_iff (a.id = b.id ∧
    a.author = b.author ∧
    a.message = b.message ∧
    a.timestamp = b.timestamp ∧
    a.profileImageUrl = b.profileImageUrl ∧
    a.badges = b.badges ∧
    a.isHost = b.isHost)
    (by cases a; cases b; simp)

/-- An `Answer` record. -/
structure Answer where
  messageId : String
  author : String
  message : String
  timestamp : ℤ
  responseTimeSeconds : ℚ
deriving Repr

instance : DecidableEq Answer := fun a b =>
  decidable_of_iff (a.messageId = b.messageId ∧
    a.author = b.author ∧
    a.message = b.message ∧
    a.timestamp = b.timestamp ∧
    a.responseTimeSeconds = b.responseTimeSeconds)
    (by cases a; cases b; simp)

/-- A `HostQuestion` record. -/
structure HostQuestion where
  messageId : String
  author : String
  question : String
  timestamp : ℤ
  answers : List Answer
  wasAnswered : Bool
deriving Repr

instance : DecidableEq HostQuestion := fun a b =>
  decidable_of_iff (a.messageId = b.messageId ∧
    a.author = b.author ∧
    a.question = b.question ∧
    a.timestamp = b.timestamp ∧
    a.answers = b.answers ∧
    a.wasAnswered = b.wasAnswered)
    (by cases a; cases b; simp)

/-- A `QuestionAnswerer` record; the helpfulness score is the rounded
integer the code stores. -/
structure QuestionAnswerer where
  author : String
  profileImageUrl : String
  questionsAnswered : ℕ
  averageResponseTime : ℚ
  helpfulnessScore : ℤ
deriving Repr

instance : DecidableEq QuestionAnswerer := fun a b =>
  decidable_of_iff (a.author = b.author ∧
    a.profileImageUrl = b.profileImageUrl ∧
    a.questionsAnswered = b.questionsAnswered ∧
    a.averageResponseTime = b.averageResponseTime ∧
    a.helpfulnessScore = b.helpfulnessScore)
    (by cases a; cases b; simp)

/-- The fixed list of interrogative lead words of `detectQuestions`. -/
def questionWords : List String :=
  ["what", "how", "why", "when", "where", "who", "can", "could", "would",
   "should", "is", "are", "do", "does"]

/-- `detectQuestions` from `questionAnalysis.ts`: a message is a question
when it is at least 5 characters and contains a question mark or starts
(lowercased, trimmed) with a question word followed by a space. -/
def detectQuestions (message : String) : Bool :=
  if message.data.length < 5 then false
  else if message.data.contains '?' then true
  else
    let lowerMessage := trimChars (message.data.map Char.toLower)
    questionWords.any (fun word => List.isPrefixOf (word.data ++ [' ']) lowerMessage)

/-- `findAnswers` from `questionAnalysis.ts`: messages strictly after the
question, within the window, by an author other than the questioner;
sorted chronologically; first 10 kept. -/
def findAnswers (question : HostQuestion) (messages : List ChatMessage)
    (timeWindowSeconds : ℚ := 120) : List Answer :=
  let questionTime := question.timestamp
  let candidateMessages := messages.filter (fun msg =>
    let timeDiffSeconds : ℚ := ((msg.timestamp - questionTime : ℤ) : ℚ) / 1000
    decide (0 < timeDiffSeconds ∧ timeDiffSeconds ≤ timeWindowSeconds ∧
      msg.author ≠ question.author))
  let sorted := sortByKey (fun m => m.timestamp) candidateMessages
  let topAnswers := sorted.take 10
  topAnswers.map (fun msg =>
    { messageId := msg.id
      author := msg.author
      message := msg.message
      timestamp := msg.timestamp
      responseTimeSeconds := ((msg.timestamp - questionTime : ℤ) : ℚ) / 1000 })

/-- `extractHostQuestions` from `questionAnalysis.ts`. -/
def extractHostQuestions (messages : List ChatMessage) (hostName : String)
    (timeWindowSeconds : ℚ := 120) : List HostQuestion :=
  let hostMessages := messages.filter (fun msg => msg.author == hostName)
  (hostMessages.filter (fun msg => detectQuestions msg.message)).map (fun msg =>
    let answers := findAnswers
      { messageId := msg.id, author := msg.author, question := msg.message,
        timestamp := msg.timestamp, answers := [], wasAnswered := false }
      messages timeWindowSeconds
    { messageId := msg.id
      author := msg.author
      question := msg.message
      timestamp := msg.timestamp
      answers := answers
      wasAnswered := decide (0 < answers.length) })

/-- First profile image URL recorded for an author (the code builds an
insertion-ordered map from the message list, defaulting to the empty
string). -/
def firstProfileImage (messages : List ChatMessage) (author : String) : String :=
  match messages.find? (fun m => m.author == author) with
  | some m => m.profileImageUrl
  | none => ""

/-- The per-author body of `rankQuestionAnswerers`: answer count, total
and mean response time over that author's `Answer` records, the author's
own corpus message count, and the weighted helpfulness score
(frequency 40%, speed 40%, engagement 20%), rounded. -/
def answererStats (hostQuestions : List HostQuestion) (messages : List ChatMessage)
    (author : String) : QuestionAnswerer :=
  let answers := (hostQuestions.map (fun q => q.answers)).flatten
  let mine := answers.filter (fun a => a.author == author)
  let answersCount := mine.length
  let totalResponseTime : ℚ := (mine.map (fun a => a.responseTimeSeconds)).sum
  let respondentMessages := (messages.filter (fun m => m.author == author)).length
  let avgResponseTime : ℚ :=
    if 0 < answersCount then totalResponseTime / answersCount else 0
  let frequencyScore : ℚ :=
    min 100 ((answersCount : ℚ) / max 1 (respondentMessages : ℚ) * 100)
  let speedScore : ℚ := max 0 (100 - avgResponseTime / 60 * 10)
  let engagementScore : ℚ :=
    (answersCount : ℚ) / (hostQuestions.length : ℚ) * 100
  let helpfulnessScore : ℚ :=
    frequencyScore * (4/10) + speedScore * (4/10) + engagementScore * (2/10)
  { author := author
    profileImageUrl := firstProfileImage messages author
    questionsAnswered := answersCount
    averageResponseTime := avgResponseTime
    helpfulnessScore := jsRound helpfulnessScore }

/-- `rankQuestionAnswerers` from `questionAnalysis.ts`: per answering
author (in order of first answer) the aggregate of `answererStats`;
result sorted descending by helpfulness score. -/
def rankQuestionAnswerers (hostQuestions : List HostQuestion)
    (messages : List ChatMessage) : List QuestionAnswerer :=
  let answers := (hostQuestions.map (fun q => q.answers)).flatten
  let authors := firstOccs (answers.map (fun a => a.author))
  let answerers := authors.map (answererStats hostQuestions messages)
  sortByKeyDesc (fun a => a.helpfulnessScore) answerers

/-- A `ConversationThread` record; start and end times are instants in
milliseconds, the member list holds message ids in thread order. -/
structure ConversationThread where
  threadId : String
  participants : List String
  messageCount : ℕ
  startTime : ℤ
  endTime : ℤ
  messages : List String
deriving Repr

instance : DecidableEq ConversationThread := fun a b =>
  decidable_of_iff (a.threadId = b.threadId ∧
    a.participants = b.participants ∧
    a.messageCount = b.messageCount ∧
    a.startTime = b.startTime ∧
    a.endTime = b.endTime ∧
    a.messages = b.messages)
    (by cases a; cases b; simp)

/-- Inner look-ahead loop of `detectThreads` over the candidate positions
`js`: an already-processed position is skipped (`continue`), the first
position past the time window stops the loop (`break`), every other
position is included.  The source adds each included position to the
processed set immediately; since the positions in `js` are pairwise
distinct this does not affect later iterations of the same inner loop, so
the loop can read the processed set from its start. -/
def gatherCandidates (sorted : List ChatMessage) (timeWindowSeconds : ℚ)
    (startTime : ℤ) (processed : List ℕ) : List ℕ → List ℕ
  | [] => []
  | j :: rest =>
    if j ∈ processed then
      gatherCandidates sorted timeWindowSeconds startTime processed rest
    else
      match sorted[j]? with
      | none => gatherCandidates sorted timeWindowSeconds startTime processed rest
      | some m =>
        let timeDiff : ℚ := ((m.timestamp - startTime : ℤ) : ℚ) / 1000
        if timeWindowSeconds < timeDiff then []
        else j :: gatherCandidates sorted timeWindowSeconds startTime processed rest

/-- Body of the outer loop of `detectThreads` for seed position `i`.  The
state is the emitted threads (each paired with the positions, in the
sorted order, of its member messages — the pairing is kept purely for
specification and is dropped by `detectThreads`), the processed-position
set, and the thread counter.

The relevance booleans `isSameAuthor` and `isMention` computed by the
source are never read by its inclusion test (only the window is), so they
are not modelled.  When a group of fewer than 3 messages is abandoned, its
gathered candidates stay in the processed set (the source adds them inside
the look-ahead loop); the seed itself is not added, but the outer loop
never revisits it. -/
def detectThreadsStep (sorted : List ChatMessage) (timeWindowSeconds : ℚ) :
    List (ConversationThread × List ℕ) × List ℕ × ℕ → ℕ →
    List (ConversationThread × List ℕ) × List ℕ × ℕ
  | (threads, processed, counter), i =>
  if i ∈ processed then (threads, processed, counter)
  else
    match sorted[i]? with
    | none => (threads, processed, counter)
    | some startMsg =>
      let js := List.range' (i + 1) (min sorted.length (i + 20) - (i + 1))
      let cands := gatherCandidates sorted timeWindowSeconds startMsg.timestamp processed js
      let memberIdxs := i :: cands
      if 3 ≤ memberIdxs.length then
        let members := memberIdxs.filterMap (fun k => sorted[k]?)
        let startTime := match members with
          | [] => 0
          | m :: _ => m.timestamp
        let endTime := match members.getLast? with
          | some m => m.timestamp
          | none => 0
        let thread : ConversationThread :=
          { threadId := "thread-" ++ toString counter
            participants := firstOccs (members.map (fun m => m.author))
            messageCount := members.length
            startTime := startTime
            endTime := endTime
            messages := members.map (fun m => m.id) }
        (threads ++ [(thread, memberIdxs)], processed ++ memberIdxs, counter + 1)
      else
        (threads, processed ++ cands, counter)

/-- The whole outer loop of `detectThreads` over the sorted messages. -/
def detectThreadsFold (sorted : List ChatMessage) (timeWindowSeconds : ℚ) :
    List (ConversationThread × List ℕ) × List ℕ × ℕ :=
  (List.range sorted.length).foldl (detectThreadsStep sorted timeWindowSeconds) ([], [], 0)

/-- `detectThreads` from `conversationThreading.ts`. -/
def detectThreads (messages : List ChatMessage) (timeWindowSeconds : ℚ := 120) :
    List ConversationThread :=
  if messages.length < 3 then []
  else
    let sorted := sortByKey (fun m => m.timestamp) messages
    (detectThreadsFold sorted timeWindowSeconds).1.map Prod.fst

/-- Minimum of a list of instants, 0 on the empty list (the source applies
`Math.min` to a spread, which is only reached on nonempty input). -/
def listMin (l : List ℤ) : ℤ :=
  match l with
  | [] => 0
  | t :: rest => rest.foldl min t

/-- Maximum of a list of instants, 0 on the empty list. -/
def listMax (l : List ℤ) : ℤ :=
  match l with
  | [] => 0
  | t :: rest => rest.foldl max t

/-- `calculateStreamDuration` from `conversationThreading.ts`: minutes
between the earliest and latest message, 0 with fewer than 2 messages. -/
def calculateStreamDuration (messages : List ChatMessage) : ℚ :=
  if messages.length < 2 then 0
  else
    let timestamps := messages.map (fun m => m.timestamp)
    ((listMax timestamps - listMin timestamps : ℤ) : ℚ) / (1000 * 60)

/-- Gaps, in seconds, between consecutive messages of one author's message
list (in corpus order, as the source computes them). -/
def consecutiveGaps (l : List ChatMessage) : List ℚ :=
  (l.zip l.tail).map (fun p => ((p.2.timestamp - p.1.timestamp : ℤ) : ℚ) / 1000)

/-- Mean intra-author gap restricted to gaps of at most 300 seconds,
defaulting to 120 when no gap qualifies.  The source duplicates this loop
in `calculateEngagementScore` and `identifyActiveCommunityMembers`;
both copies are this function. -/
def avgAuthorGap (authorMessages : List ChatMessage) : ℚ :=
  let qualifying := (consecutiveGaps authorMessages).filter (fun g => decide (g ≤ 300))
  if 0 < qualifying.length then qualifying.sum / qualifying.length else 120

/-- `calculateEngagementScore` from `conversationThreading.ts`: weighted
sum (frequency 30%, answering 25%, speed 25%, participation 20%), clamped
above at 100 and rounded. -/
def calculateEngagementScore (author : String) (messages : List ChatMessage)
    (threads : List ConversationThread) (answeredQuestions : ℕ)
    (streamDurationMinutes : ℚ) : ℤ :=
  let authorMessages := messages.filter (fun m => m.author == author)
  let messageCount := authorMessages.length
  if messageCount = 0 then 0
  else
    let messagesPerHour : ℚ :=
      if 0 < streamDurationMinutes then (messageCount : ℚ) / streamDurationMinutes * 60
      else 0
    let avgResponseTime := avgAuthorGap authorMessages
    let conversationCount := (threads.filter (fun t => t.participants.contains author)).length
    let frequencyScore : ℚ := min 100 (messagesPerHour / 10 * 100)
    let answeringScore : ℚ :=
      if 0 < answeredQuestions then min 100 ((answeredQuestions : ℚ) * 10) else 0
    let speedScore : ℚ := max 0 (100 - avgResponseTime / 120 * 100)
    let conversationScore : ℚ := min 100 ((conversationCount : ℚ) / 5 * 100)
    let totalScore :=
      frequencyScore * (3/10) + answeringScore * (25/100) +
      speedScore * (25/100) + conversationScore * (2/10)
    jsRound (min 100 totalScore)

/-- The per-member metrics block of a `CommunityMember`. -/
structure MemberMetrics where
  totalMessages : ℕ
  messagesPerHour : ℚ
  questionsAnswered : ℕ
  avgResponseTime : ℚ
  conversationCount : ℕ
deriving Repr

instance : DecidableEq MemberMetrics := fun a b =>
  decidable_of_iff (a.totalMessages = b.totalMessages ∧
    a.messagesPerHour = b.messagesPerHour ∧
    a.questionsAnswered = b.questionsAnswered ∧
    a.avgResponseTime = b.avgResponseTime ∧
    a.conversationCount = b.conversationCount)
    (by cases a; cases b; simp)

/-- A `CommunityMember` record; a missing badge entry is the empty list. -/
structure CommunityMember where
  author : String
  profileImageUrl : String
  engagementScore : ℤ
  metrics : MemberMetrics
  badges : List String
deriving Repr

instance : DecidableEq CommunityMember := fun a b =>
  decidable_of_iff (a.author = b.author ∧
    a.profileImageUrl = b.profileImageUrl ∧
    a.engagementScore = b.engagementScore ∧
    a.metrics = b.metrics ∧
    a.badges = b.badges)
    (by cases a; cases b; simp)

/-- The badge entry the source keeps for an author: the badges of the last
message with a nonempty badge list (the map entry is overwritten on every
such message). -/
def lastBadges (messages : List ChatMessage) (author : String) : List String :=
  messages.foldl
    (fun acc m => if m.author == author && !m.badges.isEmpty then m.badges else acc) []

/-- `identifyActiveCommunityMembers` from `conversationThreading.ts`:
one member per distinct author (in first-appearance order), sorted
descending by engagement score, truncated to the top 20.  The answerer
lookup is the `Map` the orchestrator passes, as an association list. -/
def identifyActiveCommunityMembers (messages : List ChatMessage)
    (threads : List ConversationThread)
    (questionAnswerers : List (String × ℕ) := []) : List CommunityMember :=
  let streamDurationMinutes := calculateStreamDuration messages
  let authors := firstOccs (messages.map (fun m => m.author))
  let members := authors.map (fun author =>
    let totalMessages := (messages.filter (fun m => m.author == author)).length
    let messagesPerHour : ℚ :=
      if 0 < streamDurationMinutes then (totalMessages : ℚ) / streamDurationMinutes * 60
      else 0
    let questionsAnswered :=
      match questionAnswerers.find? (fun p => p.1 == author) with
      | some p => p.2
      | none => 0
    let authorMessages := messages.filter (fun m => m.author == author)
    let avgResponseTime := avgAuthorGap authorMessages
    let conversationCount := (threads.filter (fun t => t.participants.contains author)).length
    let engagementScore :=
      calculateEngagementScore author messages threads questionsAnswered streamDurationMinutes
    { author := author
      profileImageUrl := firstProfileImage messages author
      engagementScore := engagementScore
      metrics :=
        { totalMessages := totalMessages
          messagesPerHour := messagesPerHour
          questionsAnswered := questionsAnswered
          avgResponseTime := avgResponseTime
          conversationCount := conversationCount }
      badges := lastBadges messages author })
  (sortByKeyDesc (fun m => m.engagementScore) members).take 20

/-- Number of messages by one author, the count `identifyHost` recomputes
for the moderator guard and the activity fallback. -/
def authorCount (messages : List ChatMessage) (author : String) : ℕ :=
  (messages.filter (fun m => m.author == author)).length

/-- Whether a message carries the owner badge. -/
def hasOwnerBadge (m : ChatMessage) : Bool := m.badges.contains "owner"

/-- Whether a message carries the moderator badge and its author clears
the `max(5, totalMessages / 100)` activity guard. -/
def isQualifiedModerator (messages : List ChatMessage) (m : ChatMessage) : Bool :=
  m.badges.contains "moderator" &&
    decide (max 5 ((messages.length : ℚ) / 100) < (authorCount messages m.author : ℚ))

/-- Priorities 2 to 4 of `identifyHost` from `hostDetection.ts`: owner
badge, qualified moderator badge, then the most-active-author fallback
with its 5% threshold.  The fallback scan replaces the running best only
on a strictly larger count, so the earliest author among those tied at
the maximum wins. -/
def identifyHostHeuristic (messages : List ChatMessage) : Option String :=
  match messages.find? hasOwnerBadge with
  | some m => some m.author
  | none =>
    match messages.find? (isQualifiedModerator messages) with
    | some m => some m.author
    | none =>
      let authors := firstOccs (messages.map (fun m => m.author))
      match authors with
      | [] => none
      | _ :: _ =>
        let best := authors.foldl (fun best a =>
          if best.2 < authorCount messages a then (a, authorCount messages a) else best)
          ("", 0)
        if (messages.length : ℚ) * (5/100) < (best.2 : ℚ) then some best.1 else none

/-- `identifyHost` from `hostDetection.ts`: a truthy (nonempty) manual
name wins outright, otherwise the badge/activity heuristic decides. -/
def identifyHost (messages : List ChatMessage)
    (manualHostName : Option String := none) : Option String :=
  match manualHostName with
  | some name => if name = "" then identifyHostHeuristic messages else some name
  | none => identifyHostHeuristic messages

/-- `flagHostMessages` from `hostDetection.ts`. -/
def flagHostMessages (messages : List ChatMessage) (hostName : String) :
    List ChatMessage :=
  messages.map (fun msg => { msg with isHost := msg.author == hostName })

/-- The stopword set of `topicAnalysis.ts` (transcribed with its
duplicate entries; only membership matters). -/
def stopwords : List String :=
  ["the", "a", "an", "and", "or", "but", "in", "on", "at", "to", "for", "of",
   "with", "by", "from", "as", "is", "was", "are", "were", "be", "been",
   "being", "have", "has", "had", "do", "does", "did", "will", "would",
   "could", "should", "may", "might", "must", "can", "this", "that", "these",
   "those", "i", "you", "he", "she", "it", "we", "they", "me", "him", "her",
   "us", "them", "my", "your", "his", "her", "its", "our", "their", "what",
   "which", "who", "whom", "why", "how", "when", "where", "if", "so", "no",
   "not", "just", "up", "down", "out", "in", "it", "ok", "lol", "haha",
   "hehe", "yeah", "yes", "no"]

/-- Strip punctuation as the regex `[^\w\s]` does: keep word characters
(alphanumerics and the underscore) and whitespace. -/
def stripPunct (s : String) : String :=
  String.mk (s.data.filter (fun c => c.isAlphanum || c == '_' || c.isWhitespace))

/-- Tokenization of one message in `extractKeywords`: lowercase, strip
punctuation, split on whitespace, drop empty tokens (`wordsOf` already
omits them) and stopwords. -/
def msgWords (message : String) : List String :=
  (wordsOf (stripPunct (strToLower message)).data).filter
    (fun w => !(stopwords.contains w))

/-- Insert-or-increment on an insertion-ordered frequency map, modelling
`map.set(k, (map.get(k) || 0) + 1)` on a JS `Map`. -/
def bump : List (String × ℕ) → String → List (String × ℕ)
  | [], k => [(k, 1)]
  | (q, n) :: rest, k => if q == k then (q, n + 1) :: rest else (q, n) :: bump rest k

/-- Ceiling division on naturals, modelling `Math.ceil(a / b)`. -/
def ceilDiv (a b : ℕ) : ℕ := (a + b - 1) / b

/-- `extractKeywords` from `topicAnalysis.ts`: unigram (length over 2),
bigram and trigram frequencies over the filtered tokens; keep keywords
meeting the minimum frequency, sort descending by frequency, top 50.
The source re-checks the stopword set when forming bigrams and trigrams,
which is vacuous because the tokens are already stopword-filtered. -/
def extractKeywords (messages : List ChatMessage) : List (String × ℕ) :=
  let keywordMap := messages.foldl (fun keywordMap msg =>
    let words := msgWords msg.message
    let m1 := words.foldl (fun m w => if 2 < w.length then bump m w else m) keywordMap
    let m2 := (words.zip words.tail).foldl
      (fun m p => bump m (p.1 ++ " " ++ p.2)) m1
    ((words.zip words.tail).zip words.tail.tail).foldl
      (fun m t => bump m (t.1.1 ++ " " ++ t.1.2 ++ " " ++ t.2)) m2) []
  let minFrequency := max 2 (ceilDiv messages.length 100)
  let keywords := keywordMap.filter (fun p => minFrequency ≤ p.2)
  (sortByKeyDesc (fun p => p.2) keywords).take 50

/-- Boolean infix test on character lists. -/
def listIsInfix (needle haystack : List Char) : Bool :=
  haystack.tails.any (fun t => needle.isPrefixOf t)

/-- JS `haystack.includes(needle)` on strings. -/
def strIncludes (haystack needle : String) : Bool :=
  listIsInfix needle.data haystack.data

/-- The match test used by clustering and trends:
`msg.message.toLowerCase().includes(keyword.toLowerCase())`. -/
def msgHasKeyword (msg : ChatMessage) (keyword : String) : Bool :=
  strIncludes (strToLower msg.message) (strToLower keyword)

/-- A `TopicCluster` record; the time range is kept as the pair of
instants the source converts to ISO strings. -/
structure TopicCluster where
  topic : String
  keywords : List String
  messageCount : ℕ
  topContributors : List String
  timeStart : ℤ
  timeEnd : ℤ
deriving Repr

instance : DecidableEq TopicCluster := fun a b =>
  decidable_of_iff (a.topic = b.topic ∧
    a.keywords = b.keywords ∧
    a.messageCount = b.messageCount ∧
    a.topContributors = b.topContributors ∧
    a.timeStart = b.timeStart ∧
    a.timeEnd = b.timeEnd)
    (by cases a; cases b; simp)

/-- `clusterByTopic` from `topicAnalysis.ts`: one cluster per top-15
keyword matching at least 2 messages, sorted by message count descending.
The `processedMessages` set the source fills is never read, so it is not
modelled. -/
def clusterByTopic (messages : List ChatMessage)
    (keywords : List (String × ℕ)) : List TopicCluster :=
  let topKeywords := (keywords.take 15).map (fun k => k.1)
  let clusters := topKeywords.filterMap (fun keyword =>
    let relatedMessages := messages.filter (fun msg => msgHasKeyword msg keyword)
    if 2 ≤ relatedMessages.length then
      let contributors := firstOccs (relatedMessages.map (fun m => m.author))
      let timestamps := relatedMessages.map (fun m => m.timestamp)
      some { topic := keyword
             keywords := [keyword]
             messageCount := relatedMessages.length
             topContributors := contributors.take 5
             timeStart := listMin timestamps
             timeEnd := listMax timestamps }
    else none)
  sortByKeyDesc (fun c => c.messageCount) clusters

/-- Trend direction of a keyword. -/
inductive TrendDir where
  | rising
  | stable
  | declining
deriving Repr, DecidableEq

/-- A `KeywordTrend` record. -/
structure KeywordTrend where
  keyword : String
  frequency : ℕ
  trend : TrendDir
deriving Repr

instance : DecidableEq KeywordTrend := fun a b =>
  decidable_of_iff (a.keyword = b.keyword ∧
    a.frequency = b.frequency ∧
    a.trend = b.trend)
    (by cases a; cases b; simp)

/-- Substring-match count of a keyword over one period. -/
def countInPeriod (period : List ChatMessage) (keyword : String) : ℕ :=
  (period.filter (fun msg => msgHasKeyword msg keyword)).length

/-- The per-keyword body of `calculateKeywordTrends`: period counts,
total frequency and the rise/decline classification against
0.3 times the larger of the first two period counts. -/
def trendFor (period1 period2 period3 : List ChatMessage)
    (keyword : String) : KeywordTrend :=
  let freq1 := countInPeriod period1 keyword
  let freq2 := countInPeriod period2 keyword
  let freq3 := countInPeriod period3 keyword
  let rise : ℚ := (freq3 : ℚ) - (freq1 : ℚ)
  let bar : ℚ := max (freq1 : ℚ) (freq2 : ℚ) * (3/10)
  let trend : TrendDir :=
    if bar < rise then .rising
    else if rise < -bar then .declining
    else .stable
  { keyword := keyword, frequency := freq1 + freq2 + freq3, trend := trend }

/-- `calculateKeywordTrends` from `topicAnalysis.ts`: chronological sort,
three contiguous periods (the first two of size the ceiling of n/3), a
trend per top-20 keyword, sorted by total frequency descending; empty
with fewer than 2 messages. -/
def calculateKeywordTrends (messages : List ChatMessage)
    (keywords : List (String × ℕ)) : List KeywordTrend :=
  if messages.length < 2 then []
  else
    let sortedMessages := sortByKey (fun m => m.timestamp) messages
    let thirdSize := ceilDiv sortedMessages.length 3
    let period1 := sortedMessages.take thirdSize
    let period2 := (sortedMessages.drop thirdSize).take thirdSize
    let period3 := sortedMessages.drop (thirdSize * 2)
    let trends := (keywords.take 20).map (fun k => trendFor period1 period2 period3 k.1)
    sortByKeyDesc (fun t => t.frequency) trends

/-- The `EngagementAnalysis` report. -/
structure EngagementAnalysis where
  hostQuestions : List HostQuestion
  questionAnswerers : List QuestionAnswerer
  topicClusters : List TopicCluster
  trendingKeywords : List KeywordTrend
  activeCommunityMembers : List CommunityMember
  conversationThreads : List ConversationThread
  totalQuestions : ℕ
  answeredQuestions : ℕ
  averageResponseTime : ℤ
  topTopics : List String
  hostName : String
deriving Repr

instance : DecidableEq EngagementAnalysis := fun a b =>
  decidable_of_iff (a.hostQuestions = b.hostQuestions ∧
    a.questionAnswerers = b.questionAnswerers ∧
    a.topicClusters = b.topicClusters ∧
    a.trendingKeywords = b.trendingKeywords ∧
    a.activeCommunityMembers = b.activeCommunityMembers ∧
    a.conversationThreads = b.conversationThreads ∧
    a.totalQuestions = b.totalQuestions ∧
    a.answeredQuestions = b.answeredQuestions ∧
    a.averageResponseTime = b.averageResponseTime ∧
    a.topTopics = b.topTopics ∧
    a.hostName = b.hostName)
    (by cases a; cases b; simp)

/-- `createEmptyAnalysis` from the orchestrator. -/
def createEmptyAnalysis : EngagementAnalysis :=
  { hostQuestions := []
    questionAnswerers := []
    topicClusters := []
    trendingKeywords := []
    activeCommunityMembers := []
    conversationThreads := []
    totalQuestions := 0
    answeredQuestions := 0
    averageResponseTime := 0
    topTopics := []
    hostName := "Unknown Host" }

/-- `calculateAverageResponseTime` from the orchestrator: rounded mean
response time over all answers of all questions, 0 when there are none. -/
def calculateAverageResponseTime (hostQuestions : List HostQuestion) : ℤ :=
  if hostQuestions.length = 0 then 0
  else
    let allAnswers := (hostQuestions.map (fun q => q.answers)).flatten
    if 0 < allAnswers.length then
      jsRound ((allAnswers.map (fun a => a.responseTimeSeconds)).sum / allAnswers.length)
    else 0

/-- `analyzeEngagement`, the orchestrator from `engagementAnalysis.ts`.
The optional AI topic augmentation is modelled by the `aiEnabled` flag
(whether an API key is configured / `useAI` is set) and by `aiThemes`, the
clusters the external model would return; when augmentation applies and
returns a nonempty theme list, the source prepends up to 10 external
themes ahead of up to 5 local clusters.  A falsy (missing or empty)
host-identification result becomes the "Unknown Host" sentinel. -/
def analyzeEngagement (messages : List ChatMessage)
    (hostIdentifier : Option String := none) (aiEnabled : Bool := false)
    (aiThemes : List TopicCluster := []) : EngagementAnalysis :=
  if messages.length = 0 then createEmptyAnalysis
  else
    let hostName :=
      match identifyHost messages hostIdentifier with
      | some n => if n = "" then "Unknown Host" else n
      | none => "Unknown Host"
    let messagesWithHost := flagHostMessages messages hostName
    let hostQuestions := extractHostQuestions messagesWithHost hostName
    let questionAnswerers := rankQuestionAnswerers hostQuestions messagesWithHost
    let answerersMap := questionAnswerers.map (fun qa => (qa.author, qa.questionsAnswered))
    let keywords := extractKeywords messagesWithHost
    let localClusters := clusterByTopic messagesWithHost keywords
    let topicClusters :=
      if aiEnabled && !aiThemes.isEmpty then aiThemes.take 10 ++ localClusters.take 5
      else localClusters
    let trendingKeywords := calculateKeywordTrends messagesWithHost keywords
    let conversationThreads := detectThreads messagesWithHost
    let activeCommunityMembers :=
      identifyActiveCommunityMembers messagesWithHost conversationThreads answerersMap
    { hostQuestions := hostQuestions
      questionAnswerers := questionAnswerers
      topicClusters := topicClusters
      trendingKeywords := trendingKeywords
      activeCommunityMembers := activeCommunityMembers
      conversationThreads := conversationThreads
      totalQuestions := hostQuestions.length
      answeredQuestions := (hostQuestions.filter (fun q => q.wasAnswered)).length
      averageResponseTime := calculateAverageResponseTime hostQuestions
      topTopics := (topicClusters.take 5).map (fun t => t.topic)
      hostName := hostName }

/-! Concrete inputs used by witnesses and counterexamples. -/

/-- Shorthand for building a plain (badge-free) chat message. -/
def mkMsg (id author : String) (ts : ℤ) (text : String) : ChatMessage :=
  { id := id, author := author, message := text, timestamp := ts }

/-- A host question at time 0 followed by two replies of the same viewer
inside the two-minute window (10 s and 20 s later). -/
def dupAnswerMsgs : List ChatMessage :=
  [ mkMsg "m1" "Host" 0 "What time does the stream end?",
    mkMsg "m2" "Bob" 10000 "9pm I think",
    mkMsg "m3" "Bob" 20000 "maybe 10pm" ]

/-- A host question at time 0 with a single reply 30 seconds later. -/
def oneAnswerMsgs : List ChatMessage :=
  [ mkMsg "m1" "Host" 0 "What time does the stream end?",
    mkMsg "m2" "Bob" 30000 "9pm!" ]

/-- Four messages at 0 s, 110 s, 150 s and 160 s: the second is gathered
into the first seed's two-element group (not emitted), although together
with the third and fourth it lies inside one 120-second window. -/
def staleSeedMsgs : List ChatMessage :=
  [ mkMsg "a" "A" 0 "hello there",
    mkMsg "b" "B" 110000 "hi again",
    mkMsg "c" "C" 150000 "yo folks",
    mkMsg "d" "D" 160000 "hey hey" ]

/-- The last three messages of `staleSeedMsgs` on their own. -/
def staleSeedTail : List ChatMessage := staleSeedMsgs.drop 1

/-- Twenty-one messages of distinct authors sharing one timestamp. -/
def sameInstantMsgs : List ChatMessage :=
  (List.range 21).map (fun k =>
    mkMsg ("m" ++ toString k) ("u" ++ toString k) 0 "same moment")

/-- Two authors tied at two messages each, no badges. -/
def tiedAuthorsMsgs : List ChatMessage :=
  [ mkMsg "1" "A" 0 "x1 msg", mkMsg "2" "B" 1000 "y1 msg",
    mkMsg "3" "A" 2000 "x2 msg", mkMsg "4" "B" 3000 "y2 msg" ]

/-- One owner-badged message from Alice among others. -/
def ownerBadgeMsgs : List ChatMessage :=
  [ mkMsg "1" "Carol" 0 "first words",
    { mkMsg "2" "Alice" 1000 "welcome everyone" with badges := ["owner"] },
    mkMsg "3" "Carol" 2000 "more words" ]

/-- Three messages from one author, 10 seconds apart. -/
def carlMsgs : List ChatMessage :=
  [ mkMsg "c1" "Carl" 0 "first message here",
    mkMsg "c2" "Carl" 10000 "second message here",
    mkMsg "c3" "Carl" 20000 "third message here" ]

/-- The single conversation thread detected on `carlMsgs`. -/
def carlThread : ConversationThread :=
  ⟨"thread-0", ["Carl"], 3, 0, 20000, ["c1", "c2", "c3"]⟩

/-- The single answerer computed on `oneAnswerMsgs`. -/
def bobQA : QuestionAnswerer := ⟨"Bob", "", 1, 30, 98⟩

/-- The single answer computed on `oneAnswerMsgs`. -/
def bobAnswer : Answer := ⟨"m2", "Bob", "9pm!", 30000, 30⟩

/-- The single host question computed on `oneAnswerMsgs`. -/
def hostQ : HostQuestion :=
  ⟨"m1", "Host", "What time does the stream end?", 0, [bobAnswer], true⟩

set_option maxRecDepth 1000000

/-! ### Helper lemmas -/

theorem jsRound_nonneg {q : ℚ} (h : 0 ≤ q) : 0 ≤ jsRound q := by
  unfold jsRound
  exact Int.le_floor.mpr (by push_cast; linarith)

theorem jsRound_le_hundred {q : ℚ} (h : q ≤ 100) : jsRound q ≤ 100 := by
  have h2 : jsRound q < 101 := by
    unfold jsRound
    exact Int.floor_lt.mpr (by push_cast; linarith)
  omega

theorem sortByKey_perm {α β : Type} [LinearOrder β] (key : α → β) (l : List α) :
    List.Perm (sortByKey key l) l :=
  @List.perm_insertionSort α (fun a b => key a ≤ key b)
    (fun a b => inferInstanceAs (Decidable (key a ≤ key b))) l

theorem mem_sortByKey {α β : Type} [LinearOrder β] {key : α → β} {l : List α} {x : α} :
    x ∈ sortByKey key l ↔ x ∈ l :=
  (sortByKey_perm key l).mem_iff

theorem sortByKey_sorted {α β : Type} [LinearOrder β] (key : α → β) (l : List α) :
    (sortByKey key l).Pairwise (fun a b => key a ≤ key b) := by
  haveI h1 : IsTotal α (fun a b => key a ≤ key b) := ⟨fun a b => le_total (key a) (key b)⟩
  haveI h2 : IsTrans α (fun a b => key a ≤ key b) :=
    ⟨fun a b c hab hbc => le_trans hab hbc⟩
  exact @List.sorted_insertionSort α (fun a b => key a ≤ key b)
    (fun a b => inferInstanceAs (Decidable (key a ≤ key b))) h1 h2 l

theorem sortByKeyDesc_perm {α β : Type} [LinearOrder β] (key : α → β) (l : List α) :
    List.Perm (sortByKeyDesc key l) l :=
  @List.perm_insertionSort α (fun a b => key b ≤ key a)
    (fun a b => inferInstanceAs (Decidable (key b ≤ key a))) l

theorem mem_sortByKeyDesc {α β : Type} [LinearOrder β] {key : α → β} {l : List α} {x : α} :
    x ∈ sortByKeyDesc key l ↔ x ∈ l :=
  (sortByKeyDesc_perm key l).mem_iff

theorem sortByKeyDesc_sorted {α β : Type} [LinearOrder β] (key : α → β) (l : List α) :
    (sortByKeyDesc key l).Pairwise (fun a b => key b ≤ key a) := by
  haveI h1 : IsTotal α (fun a b => key b ≤ key a) := ⟨fun a b => le_total (key b) (key a)⟩
  haveI h2 : IsTrans α (fun a b => key b ≤ key a) :=
    ⟨fun a b c hab hbc => le_trans hbc hab⟩
  exact @List.sorted_insertionSort α (fun a b => key b ≤ key a)
    (fun a b => inferInstanceAs (Decidable (key b ≤ key a))) h1 h2 l

theorem mem_of_mem_firstOccsAux {seen l : List String} {x : String}
    (h : x ∈ firstOccsAux seen l) : x ∈ l := by
  induction l generalizing seen with
  | nil => simp [firstOccsAux] at h
  | cons a t ih =>
    by_cases ha : a ∈ seen
    · simp only [firstOccsAux, if_pos ha] at h
      exact List.mem_cons_of_mem _ (ih h)
    · simp only [firstOccsAux, if_neg ha, List.mem_cons] at h
      rcases h with rfl | h
      · exact List.mem_cons_self _ _
      · exact List.mem_cons_of_mem _ (ih h)

theorem mem_firstOccs {l : List String} {x : String} (h : x ∈ firstOccs l) : x ∈ l :=
  mem_of_mem_firstOccsAux h

theorem firstOccs_ne_nil {a : String} {l : List String} : firstOccs (a :: l) ≠ [] := by
  simp [firstOccs, firstOccsAux]

/-! ### Question and answer extraction -/

theorem findAnswers_mem {question : HostQuestion} {messages : List ChatMessage}
    {w : ℚ} {a : Answer} (ha : a ∈ findAnswers question messages w) :
    0 < a.responseTimeSeconds ∧ a.responseTimeSeconds ≤ w ∧
      a.author ≠ question.author := by
  simp only [findAnswers, List.mem_map] at ha
  obtain ⟨msg, hmsg, rfl⟩ := ha
  have h1 : msg ∈ messages.filter (fun msg =>
      decide (0 < ((msg.timestamp - question.timestamp : ℤ) : ℚ) / 1000 ∧
        ((msg.timestamp - question.timestamp : ℤ) : ℚ) / 1000 ≤ w ∧
        msg.author ≠ question.author)) :=
    mem_sortByKey.1 (List.mem_of_mem_take hmsg)
  have h2 := List.of_mem_filter h1
  rw [decide_eq_true_eq] at h2
  exact h2

theorem findAnswers_chrono (question : HostQuestion) (messages : List ChatMessage)
    (w : ℚ) :
    (findAnswers question messages w).Pairwise (fun a b => a.timestamp ≤ b.timestamp) := by
  simp only [findAnswers]
  rw [List.pairwise_map]
  exact List.Pairwise.sublist (List.take_sublist _ _)
    (sortByKey_sorted (fun m : ChatMessage => m.timestamp) _)

theorem findAnswers_length_le (question : HostQuestion) (messages : List ChatMessage)
    (w : ℚ) : (findAnswers question messages w).length ≤ 10 := by
  simp only [findAnswers]
  rw [List.length_map, List.length_take]
  exact min_le_left 10 _

/-- C6: every `Answer` of an extracted `HostQuestion` has a response time
that is strictly positive and at most the configured window, is authored by
someone other than the questioner; answers are chronologically ordered,
at most 10 per question, and the `wasAnswered` flag holds exactly when the
answer list is nonempty. -/
theorem C6_hostQuestion_answer_invariants (messages : List ChatMessage)
    (hostName : String) (w : ℚ) (q : HostQuestion)
    (hq : q ∈ extractHostQuestions messages hostName w) :
    (∀ a ∈ q.answers,
        0 < a.responseTimeSeconds ∧ a.responseTimeSeconds ≤ w ∧ a.author ≠ q.author) ∧
    q.answers.Pairwise (fun a b => a.timestamp ≤ b.timestamp) ∧
    q.answers.length ≤ 10 ∧
    (q.wasAnswered = true ↔ q.answers ≠ []) := by
  simp only [extractHostQuestions, List.mem_map] at hq
  obtain ⟨msg, hmsg, rfl⟩ := hq
  refine ⟨fun a ha => findAnswers_mem ha, findAnswers_chrono _ _ _,
    findAnswers_length_le _ _ _, ?_⟩
  simp [decide_eq_true_eq, List.length_pos]

/-- Witness for C6 at a concrete input: the single answer of the single
host question of `oneAnswerMsgs`. -/
theorem C6_witness :
    0 < bobAnswer.responseTimeSeconds ∧ bobAnswer.responseTimeSeconds ≤ 120 ∧
      bobAnswer.author ≠ hostQ.author :=
  (C6_hostQuestion_answer_invariants oneAnswerMsgs "Host" 120 hostQ
    (by with_unfolding_all decide)).1 bobAnswer (by with_unfolding_all decide)

theorem extract_answers_pos (messages : List ChatMessage) (hostName : String) (w : ℚ) :
    ∀ q ∈ extractHostQuestions messages hostName w, ∀ a ∈ q.answers,
      0 < a.responseTimeSeconds := by
  intro q hq a ha
  simp only [extractHostQuestions, List.mem_map] at hq
  obtain ⟨msg, hmsg, rfl⟩ := hq
  exact (findAnswers_mem ha).1

/-- Every field of the helpfulness-score formula is bounded as the code
computes it: the frequency and speed terms always land in `[0, 100]`, the
engagement term is nonnegative and is at most 100 exactly when the answer
count does not exceed the question count. -/
theorem answererStats_bounds (qs : List HostQuestion) (messages : List ChatMessage)
    (author : String)
    (hpos : ∀ q ∈ qs, ∀ a ∈ q.answers, 0 < a.responseTimeSeconds) :
    0 ≤ (answererStats qs messages author).helpfulnessScore ∧
    ((answererStats qs messages author).questionsAnswered ≤ qs.length →
      (answererStats qs messages author).helpfulnessScore ≤ 100) := by
  simp only [answererStats]
  set mine := ((qs.map (fun q => q.answers)).flatten).filter (fun a => a.author == author)
    with hmine
  have hrt : ∀ a ∈ mine, 0 < a.responseTimeSeconds := by
    intro a ha
    have h1 := List.mem_of_mem_filter ha
    rw [List.mem_flatten] at h1
    obtain ⟨s, hs, has⟩ := h1
    rw [List.mem_map] at hs
    obtain ⟨q, hqmem, rfl⟩ := hs
    exact hpos q hqmem a has
  have hsum : 0 ≤ (mine.map (fun a => a.responseTimeSeconds)).sum := by
    apply List.sum_nonneg
    intro x hx
    rw [List.mem_map] at hx
    obtain ⟨a, ha, rfl⟩ := hx
    exact le_of_lt (hrt a ha)
  set avg : ℚ := if 0 < mine.length then
      (mine.map (fun a => a.responseTimeSeconds)).sum / (mine.length : ℚ) else 0 with havgdef
  have havg : 0 ≤ avg := by
    rw [havgdef]
    split
    · exact div_nonneg hsum (by positivity)
    · exact le_refl 0
  set respondent := (messages.filter (fun m => m.author == author)).length with hresp
  set freq : ℚ := min 100 ((mine.length : ℚ) / max 1 (respondent : ℚ) * 100) with hfreqdef
  set speed : ℚ := max 0 (100 - avg / 60 * 10) with hspeeddef
  set eng : ℚ := (mine.length : ℚ) / (qs.length : ℚ) * 100 with hengdef
  have hfreq0 : 0 ≤ freq := by
    rw [hfreqdef]
    exact le_min (by norm_num) (by positivity)
  have hfreq1 : freq ≤ 100 := min_le_left _ _
  have hspeed0 : 0 ≤ speed := le_max_left _ _
  have hspeed1 : speed ≤ 100 := by
    rw [hspeeddef]
    apply max_le (by norm_num)
    have : 0 ≤ avg / 60 * 10 := by positivity
    linarith
  have heng0 : 0 ≤ eng := by
    rw [hengdef]
    positivity
  constructor
  · apply jsRound_nonneg
    have h1 : 0 ≤ freq * (4/10) := by positivity
    have h2 : 0 ≤ speed * (4/10) := by positivity
    have h3 : 0 ≤ eng * (2/10) := by positivity
    linarith
  · intro hcnt
    have heng1 : eng ≤ 100 := by
      rw [hengdef]
      rcases Nat.eq_zero_or_pos qs.length with h0 | hpos2
      · rw [h0]
        norm_num
      · have hle : (mine.length : ℚ) ≤ (qs.length : ℚ) := by exact_mod_cast hcnt
        have hq0 : (0 : ℚ) < (qs.length : ℚ) := by exact_mod_cast hpos2
        have : (mine.length : ℚ) / (qs.length : ℚ) ≤ 1 := (div_le_one hq0).mpr hle
        linarith
    apply jsRound_le_hundred
    have h1 : freq * (4/10) ≤ 100 * (4/10) :=
      mul_le_mul_of_nonneg_right hfreq1 (by norm_num)
    have h2 : speed * (4/10) ≤ 100 * (4/10) :=
      mul_le_mul_of_nonneg_right hspeed1 (by norm_num)
    have h3 : eng * (2/10) ≤ 100 * (2/10) :=
      mul_le_mul_of_nonneg_right heng1 (by norm_num)
    linarith

/-- C1 (amended): the helpfulness score of every answerer ranked over the
extracted host questions is the rounding of the weighted sum with no
upper clamp; it is always a nonnegative integer, and it is at most 100
whenever that answerer's answer count does not exceed the number of host
questions.  The original claim of an unconditional upper bound of 100
fails because the engagement term is uncapped (see
`C1_counterexample`). -/
theorem C1_helpfulness_amended (messages : List ChatMessage) (hostName : String)
    (w : ℚ) (qa : QuestionAnswerer)
    (hqa : qa ∈ rankQuestionAnswerers (extractHostQuestions messages hostName w) messages) :
    0 ≤ qa.helpfulnessScore ∧
    (qa.questionsAnswered ≤ (extractHostQuestions messages hostName w).length →
      qa.helpfulnessScore ≤ 100) := by
  simp only [rankQuestionAnswerers] at hqa
  rw [mem_sortByKeyDesc] at hqa
  rw [List.mem_map] at hqa
  obtain ⟨author, hauthor, rfl⟩ := hqa
  exact answererStats_bounds _ _ _ (extract_answers_pos messages hostName w)

/-- Witness for C1 (amended) at a concrete input: the single answerer of
`oneAnswerMsgs` answered 1 question out of 1 and scores 98. -/
theorem C1_witness : 0 ≤ bobQA.helpfulnessScore ∧ bobQA.helpfulnessScore ≤ 100 := by
  have h := C1_helpfulness_amended oneAnswerMsgs "Host" 120 bobQA
    (by with_unfolding_all decide)
  exact ⟨h.1, h.2 (by with_unfolding_all decide)⟩

/-- C1 counterexample: on `dupAnswerMsgs` (one host question, one viewer
answering it twice inside the window) the single ranked answerer has
helpfulness score 119, outside `[0, 100]`: the claimed clamp does not
exist in the code. -/
theorem C1_counterexample :
    (rankQuestionAnswerers (extractHostQuestions dupAnswerMsgs "Host" 120)
      dupAnswerMsgs).map (fun a => a.helpfulnessScore) = [119] ∧
    ¬((119 : ℤ) ≤ 100) := by
  constructor
  · with_unfolding_all decide
  · decide

/-- C10: answer-candidate selection does not deduplicate by author — on
`dupAnswerMsgs` the single host question carries two answers by the same
author, and that answerer's `questionsAnswered` is 2, exceeding the
1 extracted host question. -/
theorem C10_duplicate_answers :
    (extractHostQuestions dupAnswerMsgs "Host" 120).length = 1 ∧
    (extractHostQuestions dupAnswerMsgs "Host" 120).map
      (fun q => q.answers.map (fun a => a.author)) = [["Bob", "Bob"]] ∧
    (rankQuestionAnswerers (extractHostQuestions dupAnswerMsgs "Host" 120)
      dupAnswerMsgs).map (fun a => (a.author, a.questionsAnswered)) = [("Bob", 2)] := by
  refine ⟨?_, ?_, ?_⟩ <;> with_unfolding_all decide

/-- The engagement score as computed is clamped above at 100 before
rounding and every term is nonnegative, so the rounded score lies in
`[0, 100]` for every input. -/
theorem calculateEngagementScore_bounds (author : String) (messages : List ChatMessage)
    (threads : List ConversationThread) (answeredQuestions : ℕ)
    (streamDurationMinutes : ℚ) :
    0 ≤ calculateEngagementScore author messages threads answeredQuestions
        streamDurationMinutes ∧
    calculateEngagementScore author messages threads answeredQuestions
        streamDurationMinutes ≤ 100 := by
  simp only [calculateEngagementScore]
  split
  · exact ⟨le_refl 0, by norm_num⟩
  · set cnt := (messages.filter (fun m => m.author == author)).length with hcnt
    set mph : ℚ := if 0 < streamDurationMinutes then
        (cnt : ℚ) / streamDurationMinutes * 60 else 0 with hmphdef
    have hmph : 0 ≤ mph := by
      rw [hmphdef]
      split
      · rename_i h
        exact mul_nonneg (div_nonneg (by positivity) (le_of_lt h)) (by norm_num)
      · exact le_refl 0
    set avg := avgAuthorGap (messages.filter (fun m => m.author == author)) with havgdef
    set conv := (threads.filter (fun t => t.participants.contains author)).length with hconvdef
    set freq : ℚ := min 100 (mph / 10 * 100) with hfreqdef
    set ansS : ℚ := if 0 < answeredQuestions then
        min 100 ((answeredQuestions : ℚ) * 10) else 0 with hansdef
    set speed : ℚ := max 0 (100 - avg / 120 * 100) with hspeeddef
    set convS : ℚ := min 100 ((conv : ℚ) / 5 * 100) with hconvSdef
    have hfreq0 : 0 ≤ freq := by
      rw [hfreqdef]
      exact le_min (by norm_num) (by positivity)
    have hans0 : 0 ≤ ansS := by
      rw [hansdef]
      split
      · exact le_min (by norm_num) (by positivity)
      · exact le_refl 0
    have hspeed0 : 0 ≤ speed := le_max_left _ _
    have hconv0 : 0 ≤ convS := by
      rw [hconvSdef]
      exact le_min (by norm_num) (by positivity)
    have htot : 0 ≤ freq * (3/10) + ansS * (25/100) + speed * (25/100) + convS * (2/10) := by
      have h1 : 0 ≤ freq * (3/10) := by positivity
      have h2 : 0 ≤ ansS * (25/100) := by positivity
      have h3 : 0 ≤ speed * (25/100) := by positivity
      have h4 : 0 ≤ convS * (2/10) := by positivity
      linarith
    constructor
    · exact jsRound_nonneg (le_min (by norm_num) htot)
    · exact jsRound_le_hundred (min_le_left _ _)

/-- C7: every community member returned by
`identifyActiveCommunityMembers` has an engagement score in `[0, 100]`,
the returned list is sorted non-increasingly by engagement score, and it
contains at most 20 members. -/
theorem C7_community_member_invariants (messages : List ChatMessage)
    (threads : List ConversationThread) (questionAnswerers : List (String × ℕ)) :
    (∀ mem ∈ identifyActiveCommunityMembers messages threads questionAnswerers,
        0 ≤ mem.engagementScore ∧ mem.engagementScore ≤ 100) ∧
    (identifyActiveCommunityMembers messages threads questionAnswerers).Pairwise
      (fun a b => b.engagementScore ≤ a.engagementScore) ∧
    (identifyActiveCommunityMembers messages threads questionAnswerers).length ≤ 20 := by
  refine ⟨?_, ?_, ?_⟩
  · intro mem hmem
    simp only [identifyActiveCommunityMembers] at hmem
    have h1 := mem_sortByKeyDesc.1 (List.mem_of_mem_take hmem)
    rw [List.mem_map] at h1
    obtain ⟨author, hauthor, rfl⟩ := h1
    exact calculateEngagementScore_bounds _ _ _ _ _
  · simp only [identifyActiveCommunityMembers]
    exact List.Pairwise.sublist (List.take_sublist _ _) (sortByKeyDesc_sorted _ _)
  · simp only [identifyActiveCommunityMembers]
    rw [List.length_take]
    exact min_le_left _ _


/-- The community member computed for Carl on `carlMsgs`. -/
def carlMember : CommunityMember :=
  ⟨"Carl", "", 53, ⟨3, 540, 0, 10, 0⟩, []⟩

/-- Witness for C7 at a concrete input: Carl's member record on
`carlMsgs` has its score inside `[0, 100]`. -/
theorem C7_witness : 0 ≤ carlMember.engagementScore ∧ carlMember.engagementScore ≤ 100 :=
  (C7_community_member_invariants carlMsgs [] []).1 carlMember
    (by with_unfolding_all decide)

/-- The per-keyword trend classification exactly as coded: rising when
the count rise from the first to the third period exceeds 0.3 times the
larger of the first two period counts, declining on the symmetric
condition, stable otherwise; frequency is the sum over the periods. -/
theorem trendFor_spec (p1 p2 p3 : List ChatMessage) (kw : String) :
    (trendFor p1 p2 p3 kw).keyword = kw ∧
    (trendFor p1 p2 p3 kw).frequency =
      countInPeriod p1 kw + countInPeriod p2 kw + countInPeriod p3 kw ∧
    ((trendFor p1 p2 p3 kw).trend = TrendDir.rising ↔
      max (countInPeriod p1 kw : ℚ) (countInPeriod p2 kw : ℚ) * (3/10) <
        (countInPeriod p3 kw : ℚ) - (countInPeriod p1 kw : ℚ)) ∧
    ((trendFor p1 p2 p3 kw).trend = TrendDir.declining ↔
      (countInPeriod p3 kw : ℚ) - (countInPeriod p1 kw : ℚ) <
        -(max (countInPeriod p1 kw : ℚ) (countInPeriod p2 kw : ℚ) * (3/10))) ∧
    ((trendFor p1 p2 p3 kw).trend = TrendDir.stable ↔
      (¬(max (countInPeriod p1 kw : ℚ) (countInPeriod p2 kw : ℚ) * (3/10) <
          (countInPeriod p3 kw : ℚ) - (countInPeriod p1 kw : ℚ)) ∧
       ¬((countInPeriod p3 kw : ℚ) - (countInPeriod p1 kw : ℚ) <
          -(max (countInPeriod p1 kw : ℚ) (countInPeriod p2 kw : ℚ) * (3/10))))) := by
  simp only [trendFor]
  set c1 := countInPeriod p1 kw with hc1
  set c2 := countInPeriod p2 kw with hc2
  set c3 := countInPeriod p3 kw with hc3
  have hbar : (0 : ℚ) ≤ max (c1 : ℚ) (c2 : ℚ) * (3/10) := by positivity
  refine ⟨trivial, trivial, ?_, ?_, ?_⟩ <;> split_ifs with hA hB
  · exact iff_of_true rfl hA
  · exact iff_of_false (by simp) hA
  · exact iff_of_false (by simp) hA
  · exact iff_of_false (by simp) (by intro hx; linarith)
  · exact iff_of_true rfl hB
  · exact iff_of_false (by simp) hB
  · exact iff_of_false (by simp) (by intro hx; exact hx.1 hA)
  · exact iff_of_false (by simp) (by intro hx; exact hx.2 hB)
  · exact iff_of_true rfl ⟨hA, hB⟩

/-- C8: `calculateKeywordTrends` returns no trends on fewer than 2
messages; otherwise one trend per top-20 keyword, classified by the
rise/decline formula over the three contiguous periods of the
chronologically sorted corpus (the first two of size the ceiling of n/3),
and the result is sorted by total frequency descending. -/
theorem C8_keyword_trends (messages : List ChatMessage) (keywords : List (String × ℕ)) :
    (messages.length < 2 → calculateKeywordTrends messages keywords = []) ∧
    (calculateKeywordTrends messages keywords).Pairwise
      (fun a b => b.frequency ≤ a.frequency) ∧
    (2 ≤ messages.length →
      (calculateKeywordTrends messages keywords).length = min 20 keywords.length ∧
      ∀ t ∈ calculateKeywordTrends messages keywords,
        ∃ k ∈ keywords.take 20,
          let sorted := sortByKey (fun m => m.timestamp) messages
          let third := ceilDiv sorted.length 3
          let c1 := countInPeriod (sorted.take third) k.1
          let c2 := countInPeriod ((sorted.drop third).take third) k.1
          let c3 := countInPeriod (sorted.drop (third * 2)) k.1
          t.keyword = k.1 ∧
          t.frequency = c1 + c2 + c3 ∧
          (t.trend = TrendDir.rising ↔
            max (c1 : ℚ) (c2 : ℚ) * (3/10) < (c3 : ℚ) - (c1 : ℚ)) ∧
          (t.trend = TrendDir.declining ↔
            (c3 : ℚ) - (c1 : ℚ) < -(max (c1 : ℚ) (c2 : ℚ) * (3/10))) ∧
          (t.trend = TrendDir.stable ↔
            (¬(max (c1 : ℚ) (c2 : ℚ) * (3/10) < (c3 : ℚ) - (c1 : ℚ)) ∧
             ¬((c3 : ℚ) - (c1 : ℚ) < -(max (c1 : ℚ) (c2 : ℚ) * (3/10)))))) := by
  refine ⟨?_, ?_, ?_⟩
  · intro h
    simp only [calculateKeywordTrends, if_pos h]
  · simp only [calculateKeywordTrends]
    split
    · exact List.Pairwise.nil
    · exact sortByKeyDesc_sorted _ _
  · intro h2
    have hn : ¬(messages.length < 2) := not_lt.mpr h2
    simp only [calculateKeywordTrends, if_neg hn]
    constructor
    · rw [(sortByKeyDesc_perm _ _).length_eq, List.length_map, List.length_take]
    · intro t ht
      rw [mem_sortByKeyDesc, List.mem_map] at ht
      obtain ⟨k, hk, rfl⟩ := ht
      refine ⟨k, hk, ?_⟩
      have h := trendFor_spec
        ((sortByKey (fun m => m.timestamp) messages).take
          (ceilDiv (sortByKey (fun m => m.timestamp) messages).length 3))
        (((sortByKey (fun m => m.timestamp) messages).drop
            (ceilDiv (sortByKey (fun m => m.timestamp) messages).length 3)).take
          (ceilDiv (sortByKey (fun m => m.timestamp) messages).length 3))
        ((sortByKey (fun m => m.timestamp) messages).drop
          (ceilDiv (sortByKey (fun m => m.timestamp) messages).length 3 * 2))
        k.1
      exact ⟨h.1, h.2.1, h.2.2.1, h.2.2.2.1, h.2.2.2.2⟩

/-- Witness for C8 at a concrete input: one keyword over `carlMsgs`
yields exactly one trend. -/
theorem C8_witness :
    (calculateKeywordTrends carlMsgs [("message", 1)]).length =
      min 20 ([("message", 1)] : List (String × ℕ)).length :=
  ((C8_keyword_trends carlMsgs [("message", 1)]).2.2 (by decide)).1

/-- Characterization of the strict-improvement scan of the fallback of
`identifyHost`: either no element beats the initial best and the scan
returns it unchanged, or the scan returns the first element that strictly
exceeds everything before it, with every later element at most it. -/
theorem foldl_best_spec (cnt : String → ℕ) :
    ∀ (l : List String) (b : String × ℕ),
      (l.foldl (fun best a => if best.2 < cnt a then (a, cnt a) else best) b = b ∧
        ∀ x ∈ l, cnt x ≤ b.2) ∨
      (∃ l1 a l2, l = l1 ++ a :: l2 ∧
        l.foldl (fun best a => if best.2 < cnt a then (a, cnt a) else best) b = (a, cnt a) ∧
        b.2 < cnt a ∧ (∀ x ∈ l1, cnt x < cnt a) ∧ (∀ x ∈ l2, cnt x ≤ cnt a))
  | [], b => Or.inl ⟨rfl, by simp⟩
  | a :: t, b => by
    rw [List.foldl_cons]
    by_cases h : b.2 < cnt a
    · rw [if_pos h]
      rcases foldl_best_spec cnt t (a, cnt a) with ⟨heq, hall⟩ |
        ⟨l1, a1, l2, hsplit, heq, hlt, hstrict, hle⟩
      · exact Or.inr ⟨[], a, t, by simp, heq, h, by simp, hall⟩
      · refine Or.inr ⟨a :: l1, a1, l2, by simp [hsplit], heq, lt_trans h hlt, ?_, hle⟩
        intro x hx
        rcases List.mem_cons.1 hx with rfl | hx
        · exact hlt
        · exact hstrict x hx
    · rw [if_neg h]
      have hle2 : cnt a ≤ b.2 := not_lt.1 h
      rcases foldl_best_spec cnt t b with ⟨heq, hall⟩ |
        ⟨l1, a1, l2, hsplit, heq, hlt, hstrict, hle⟩
      · refine Or.inl ⟨heq, ?_⟩
        intro x hx
        rcases List.mem_cons.1 hx with rfl | hx
        · exact hle2
        · exact hall x hx
      · refine Or.inr ⟨a :: l1, a1, l2, by simp [hsplit], heq, hlt, ?_, hle⟩
        intro x hx
        rcases List.mem_cons.1 hx with rfl | hx
        · exact lt_of_le_of_lt hle2 hlt
        · exact hstrict x hx

/-- C4 (amended): `identifyHost` follows the strict priority order —
a nonempty manual name verbatim; else the author of the first
owner-badged message; else the author of the first moderator-badged
message clearing the `max(5, n/100)` guard; else the fallback, which
returns the earliest-appearing author among those with the (weakly)
highest message count provided that count strictly exceeds 5% of all
messages, and no host only when that threshold fails.  The original
claim that a tie for the highest count yields no host is false: the
scan replaces its best only on a strictly larger count, so the first
tied author wins (see `C4_counterexample`). -/
theorem C4_identifyHost_amended (messages : List ChatMessage) :
    (∀ name, name ≠ "" → identifyHost messages (some name) = some name) ∧
    (∀ m, messages.find? hasOwnerBadge = some m →
      identifyHost messages none = some m.author) ∧
    (messages.find? hasOwnerBadge = none →
      ∀ m, messages.find? (isQualifiedModerator messages) = some m →
        identifyHost messages none = some m.author) ∧
    (messages.find? hasOwnerBadge = none →
      messages.find? (isQualifiedModerator messages) = none →
      ((identifyHost messages none = none →
          ∀ b ∈ firstOccs (messages.map (fun m => m.author)),
            (authorCount messages b : ℚ) ≤ (messages.length : ℚ) * (5/100)) ∧
       (∀ a, identifyHost messages none = some a →
          ∃ l1 l2, firstOccs (messages.map (fun m => m.author)) = l1 ++ a :: l2 ∧
            (messages.length : ℚ) * (5/100) < (authorCount messages a : ℚ) ∧
            (∀ b ∈ l1, authorCount messages b < authorCount messages a) ∧
            (∀ b ∈ l2, authorCount messages b ≤ authorCount messages a)))) := by
  refine ⟨?_, ?_, ?_, ?_⟩
  · intro name hname
    simp [identifyHost, hname]
  · intro m hm
    simp only [identifyHost, identifyHostHeuristic, hm]
  · intro ho m hm
    simp only [identifyHost, identifyHostHeuristic, ho, hm]
  · intro ho hmod
    simp only [identifyHost, identifyHostHeuristic, ho, hmod]
    rcases hA : firstOccs (messages.map (fun m => m.author)) with _ | ⟨a0, rest⟩
    · rw [hA]
      constructor
      · intro _ b hb
        exact absurd hb (List.not_mem_nil b)
      · intro a ha
        exact absurd ha (by simp)
    · rw [hA]
      rcases foldl_best_spec (authorCount messages) (a0 :: rest) ("", 0) with
        ⟨heq, hall⟩ | ⟨l1, a1, l2, hsplit, heq, hlt, hstrict, hle⟩
      · rw [heq]
        constructor
        · intro _ b hb
          have hb0 : authorCount messages b ≤ 0 := hall b hb
          have hz : (authorCount messages b : ℚ) = 0 := by
            exact_mod_cast Nat.le_zero.1 hb0
          rw [hz]
          positivity
        · intro a ha
          split_ifs at ha with hth
          exfalso
          have h0 : (0 : ℚ) ≤ (messages.length : ℚ) * (5/100) := by positivity
          norm_num at hth
          linarith
      · rw [heq]
        split_ifs with hth
        · constructor
          · intro hcontra
            exact absurd hcontra (by simp)
          · intro a ha
            have haa : a1 = a := by simpa using ha
            subst haa
            refine ⟨l1, l2, hsplit, ?_, hstrict, hle⟩
            exact_mod_cast hth
        · constructor
          · intro _ b hb
            rw [hsplit] at hb
            have hmax : (authorCount messages a1 : ℚ) ≤ (messages.length : ℚ) * (5/100) := by
              push_neg at hth
              exact_mod_cast hth
            rcases List.mem_append.1 hb with hb1 | hb2
            · have hlt2 := hstrict b hb1
              have hc : (authorCount messages b : ℚ) ≤ (authorCount messages a1 : ℚ) := by
                exact_mod_cast le_of_lt hlt2
              linarith
            · rcases List.mem_cons.1 hb2 with rfl | hb3
              · exact hmax
              · have hle3 := hle b hb3
                have hc : (authorCount messages b : ℚ) ≤ (authorCount messages a1 : ℚ) := by
                  exact_mod_cast hle3
                linarith
          · intro a ha
            exact absurd ha (by simp)



/-- C4 counterexample: on `tiedAuthorsMsgs` authors A and B tie at 2
messages each (half of the 4-message corpus, so above the 5% threshold),
there is no badge and no manual name, and a host IS identified — the
first-appearing tied author — where the claim says "no host is
identified" on a tie. -/
theorem C4_counterexample :
    identifyHost tiedAuthorsMsgs none = some "A" ∧
    authorCount tiedAuthorsMsgs "A" = 2 ∧ authorCount tiedAuthorsMsgs "B" = 2 := by
  refine ⟨?_, ?_, ?_⟩ <;> with_unfolding_all decide

/-- Witness for C4 (amended) at a concrete input: the owner-badge clause
on `ownerBadgeMsgs`. -/
theorem C4_witness : identifyHost ownerBadgeMsgs none = some "Alice" :=
  (C4_identifyHost_amended ownerBadgeMsgs).2.1
    { mkMsg "2" "Alice" 1000 "welcome everyone" with badges := ["owner"] }
    (by with_unfolding_all decide)

theorem gatherCandidates_sublist (sorted : List ChatMessage) (w : ℚ) (t : ℤ)
    (processed : List ℕ) :
    ∀ js, List.Sublist (gatherCandidates sorted w t processed js) js
  | [] => List.Sublist.refl []
  | j :: rest => by
    by_cases hjp : j ∈ processed
    · simp only [gatherCandidates, if_pos hjp]
      exact List.Sublist.cons j (gatherCandidates_sublist sorted w t processed rest)
    · cases hio : sorted[j]? with
      | none =>
        simp only [gatherCandidates, if_neg hjp, hio]
        exact List.Sublist.cons j (gatherCandidates_sublist sorted w t processed rest)
      | some m =>
        simp only [gatherCandidates, if_neg hjp, hio]
        by_cases hw : w < ((m.timestamp - t : ℤ) : ℚ) / 1000
        · simp only [if_pos hw]
          exact List.nil_sublist _
        · simp only [if_neg hw]
          exact List.Sublist.cons₂ j (gatherCandidates_sublist sorted w t processed rest)

theorem gatherCandidates_not_processed (sorted : List ChatMessage) (w : ℚ) (t : ℤ)
    (processed : List ℕ) :
    ∀ js, ∀ j ∈ gatherCandidates sorted w t processed js, j ∉ processed
  | [] => by simp [gatherCandidates]
  | j :: rest => by
    by_cases hjp : j ∈ processed
    · simp only [gatherCandidates, if_pos hjp]
      exact gatherCandidates_not_processed sorted w t processed rest
    · cases hio : sorted[j]? with
      | none =>
        simp only [gatherCandidates, if_neg hjp, hio]
        exact gatherCandidates_not_processed sorted w t processed rest
      | some m =>
        simp only [gatherCandidates, if_neg hjp, hio]
        by_cases hw : w < ((m.timestamp - t : ℤ) : ℚ) / 1000
        · simp only [if_pos hw]
          intro x hx
          exact absurd hx (List.not_mem_nil x)
        · simp only [if_neg hw]
          intro x hx
          rcases List.mem_cons.1 hx with rfl | hx2
          · exact hjp
          · exact gatherCandidates_not_processed sorted w t processed rest x hx2



/-- Looking up a list of in-range positions loses nothing. -/
theorem length_filterMap_getElem (l : List ChatMessage) (idxs : List ℕ)
    (h : ∀ k ∈ idxs, k < l.length) :
    (idxs.filterMap (fun k => l[k]?)).length = idxs.length := by
  induction idxs with
  | nil => simp
  | cons k t ih =>
    have hk : k < l.length := h k (List.mem_cons_self _ _)
    have hsome : l[k]? = some l[k] := List.getElem?_eq_getElem hk
    rw [List.filterMap_cons, hsome]
    simp only [List.length_cons]
    rw [ih (fun j hj => h j (List.mem_cons_of_mem _ hj))]

/-- The invariant maintained by the outer loop of `detectThreads` over the
sorted message list: every emitted thread records between 3 and 20
pairwise-distinct positions, all processed and in range, its public
fields are derived from those positions, and the position sets of
distinct threads are disjoint. -/
def ThreadInv (sorted : List ChatMessage)
    (st : List (ConversationThread × List ℕ) × List ℕ × ℕ) : Prop :=
  (∀ tp ∈ st.1, tp.2.Nodup ∧ 3 ≤ tp.2.length ∧ tp.2.length ≤ 20 ∧
     (∀ k ∈ tp.2, k ∈ st.2.1 ∧ k < sorted.length) ∧
     tp.1.messageCount = tp.2.length ∧
     tp.1.messages = (tp.2.filterMap (fun k => sorted[k]?)).map (fun m => m.id) ∧
     tp.1.participants ≠ []) ∧
  List.Pairwise (fun tp1 tp2 => ∀ k ∈ tp1.2, k ∉ tp2.2) st.1

/-- One outer-loop step of `detectThreads` preserves the invariant:
skipped seeds change nothing; an abandoned small group only grows the
processed set; an emitted thread adds fresh, pairwise-new positions. -/
theorem detectThreadsStep_inv (sorted : List ChatMessage) (w : ℚ)
    (st : List (ConversationThread × List ℕ) × List ℕ × ℕ) (i : ℕ)
    (h : ThreadInv sorted st) : ThreadInv sorted (detectThreadsStep sorted w st i) := by
  obtain ⟨threads, processed, counter⟩ := st
  by_cases hip : i ∈ processed
  · simpa only [detectThreadsStep, if_pos hip] using h
  · cases hio : sorted[i]? with
    | none => simpa only [detectThreadsStep, if_neg hip, hio] using h
    | some startMsg =>
      simp only [detectThreadsStep, if_neg hip, hio]
      set js := List.range' (i + 1) (min sorted.length (i + 20) - (i + 1)) with hjs
      set cands := gatherCandidates sorted w startMsg.timestamp processed js with hcands
      have hsub : List.Sublist cands js := gatherCandidates_sublist sorted w _ _ js
      have hcnp : ∀ j ∈ cands, j ∉ processed :=
        gatherCandidates_not_processed sorted w _ _ js
      have hcrange : ∀ j ∈ cands, i + 1 ≤ j ∧ j < sorted.length := by
        intro j hj
        have hjs2 := hsub.subset hj
        rw [hjs, List.mem_range'_1] at hjs2
        have hmin : min sorted.length (i + 20) ≤ sorted.length := min_le_left _ _
        omega
      have hin : i < sorted.length := (List.getElem?_eq_some_iff.1 hio).1
      have hcnodup : cands.Nodup := hsub.nodup (List.nodup_range' _ _)
      have hmemnodup : (i :: cands).Nodup := by
        rw [List.nodup_cons]
        refine ⟨?_, hcnodup⟩
        intro hic
        have := (hcrange i hic).1
        omega
      have hmemrange : ∀ k ∈ i :: cands, k < sorted.length := by
        intro k hk
        rcases List.mem_cons.1 hk with rfl | hk2
        · exact hin
        · exact (hcrange k hk2).2
      have hmemlen : (i :: cands).length ≤ 20 := by
        have h1 : cands.length ≤ js.length := hsub.length_le
        have h2 : js.length = min sorted.length (i + 20) - (i + 1) := by
          rw [hjs, List.length_range']
        have hmin : min sorted.length (i + 20) ≤ i + 20 := min_le_right _ _
        simp only [List.length_cons]
        omega
      by_cases hemit : 3 ≤ (i :: cands).length
      · simp only [if_pos hemit]
        have hmemdisj : ∀ k ∈ i :: cands, k ∉ processed := by
          intro k hk
          rcases List.mem_cons.1 hk with rfl | hk2
          · exact hip
          · exact hcnp k hk2
        have hflen : ((i :: cands).filterMap (fun k => sorted[k]?)).length =
            (i :: cands).length := length_filterMap_getElem sorted _ hmemrange
        constructor
        · intro tp htp
          rcases List.mem_append.1 htp with htp1 | htp2
          · have h1 := h.1 tp htp1
            refine ⟨h1.1, h1.2.1, h1.2.2.1, ?_, h1.2.2.2.2⟩
            intro k hk
            exact ⟨List.mem_append_left _ (h1.2.2.2.1 k hk).1, (h1.2.2.2.1 k hk).2⟩
          · rcases List.mem_singleton.1 htp2 with rfl
            refine ⟨hmemnodup, ?_, hmemlen, ?_, ?_, rfl, ?_⟩
            · simpa using hemit
            · intro k hk
              exact ⟨List.mem_append_right _ hk, hmemrange k hk⟩
            · exact hflen
            · show firstOccs (((i :: cands).filterMap (fun k => sorted[k]?)).map
                  (fun m => m.author)) ≠ []
              rcases hmembers : (i :: cands).filterMap (fun k => sorted[k]?) with _ | ⟨m0, ms⟩
              · exfalso
                rw [hmembers] at hflen
                simp at hflen
              · simp only [List.map_cons]
                exact firstOccs_ne_nil
        · rw [List.pairwise_append]
          refine ⟨h.2, List.pairwise_singleton _ _, ?_⟩
          intro tp1 htp1 tp2 htp2 k hk
          rcases List.mem_singleton.1 htp2 with rfl
          intro hk2
          exact hmemdisj k hk2 ((h.1 tp1 htp1).2.2.2.1 k hk).1
      · simp only [if_neg hemit]
        constructor
        · intro tp htp
          have h1 := h.1 tp htp
          refine ⟨h1.1, h1.2.1, h1.2.2.1, ?_, h1.2.2.2.2⟩
          intro k hk
          exact ⟨List.mem_append_left _ (h1.2.2.2.1 k hk).1, (h1.2.2.2.1 k hk).2⟩
        · exact h.2

/-- The whole outer loop maintains `ThreadInv` from the empty state. -/
theorem detectThreadsFold_inv (sorted : List ChatMessage) (w : ℚ) :
    ThreadInv sorted (detectThreadsFold sorted w) := by
  have hgen : ∀ (l : List ℕ) st, ThreadInv sorted st →
      ThreadInv sorted (l.foldl (detectThreadsStep sorted w) st) := by
    intro l
    induction l with
    | nil => intro st h; exact h
    | cons j t ih =>
      intro st h
      exact ih _ (detectThreadsStep_inv sorted w st j h)
  exact hgen _ _ ⟨by simp, List.Pairwise.nil⟩



/-- C5: on any input with pairwise-distinct message ids, every thread
returned by `detectThreads` has at least 3 messages and at least one
participant, no message id appears in the member lists of two different
threads, and fewer than 3 total messages produce no threads. -/
theorem C5_thread_invariants (messages : List ChatMessage) (w : ℚ)
    (hids : (messages.map (fun m => m.id)).Nodup) :
    (∀ t ∈ detectThreads messages w, 3 ≤ t.messageCount ∧ t.participants ≠ []) ∧
    List.Pairwise (fun t1 t2 => ∀ mid ∈ t1.messages, mid ∉ t2.messages)
      (detectThreads messages w) ∧
    (messages.length < 3 → detectThreads messages w = []) := by
  by_cases hn : messages.length < 3
  · simp [detectThreads, hn]
  · have hinv := detectThreadsFold_inv (sortByKey (fun m => m.timestamp) messages) w
    have hidsorted :
        ((sortByKey (fun m => m.timestamp) messages).map (fun m => m.id)).Nodup :=
      (List.Perm.nodup_iff ((sortByKey_perm _ _).map _)).2 hids
    simp only [detectThreads, if_neg hn]
    refine ⟨?_, ?_, fun h3 => absurd h3 hn⟩
    · intro t ht
      rw [List.mem_map] at ht
      obtain ⟨tp, htp, rfl⟩ := ht
      have h1 := hinv.1 tp htp
      constructor
      · rw [h1.2.2.2.2.1]
        exact h1.2.1
      · exact h1.2.2.2.2.2.2
    · rw [List.pairwise_map]
      refine List.Pairwise.imp_of_mem ?_ hinv.2
      intro tp1 tp2 h1mem h2mem hdisj mid hmid1 hmid2
      have f1 := hinv.1 tp1 h1mem
      have f2 := hinv.1 tp2 h2mem
      rw [f1.2.2.2.2.2.1, List.mem_map] at hmid1
      rw [f2.2.2.2.2.2.1, List.mem_map] at hmid2
      obtain ⟨m1, hm1, hid1⟩ := hmid1
      obtain ⟨m2, hm2, hid2⟩ := hmid2
      rw [List.mem_filterMap] at hm1 hm2
      obtain ⟨k1, hk1, hg1⟩ := hm1
      obtain ⟨k2, hk2, hg2⟩ := hm2
      have hk1n := (f1.2.2.2.1 k1 hk1).2
      have hk2n := (f2.2.2.2.1 k2 hk2).2
      have hne : k1 ≠ k2 := fun he => hdisj k1 hk1 (he ▸ hk2)
      have hg1e := (List.getElem?_eq_some_iff.1 hg1).2
      have hg2e := (List.getElem?_eq_some_iff.1 hg2).2
      apply hne
      have hlen1 : k1 < ((sortByKey (fun m => m.timestamp) messages).map
          (fun m => m.id)).length := by
        simpa using hk1n
      have hlen2 : k2 < ((sortByKey (fun m => m.timestamp) messages).map
          (fun m => m.id)).length := by
        simpa using hk2n
      have hmapeq : ((sortByKey (fun m => m.timestamp) messages).map
            (fun m => m.id))[k1] =
          ((sortByKey (fun m => m.timestamp) messages).map (fun m => m.id))[k2] := by
        rw [List.getElem_map, List.getElem_map, hg1e, hg2e, hid1, hid2]
      exact (List.Nodup.getElem_inj_iff hidsorted).1 hmapeq



/-- C3 (amended): each seed examines at most the next 19 positions of
the sorted order (the inner loop runs j = i+1 .. i+19, and
already-processed positions do consume that budget), including each
unprocessed candidate within the window until the first one beyond it —
so every emitted thread has at most 20 members, not the 21 that a
20-candidate look-ahead would allow (see `C3_counterexample`). -/
theorem C3_lookahead_cap_amended (messages : List ChatMessage) (w : ℚ)
    (t : ConversationThread) (ht : t ∈ detectThreads messages w) :
    t.messageCount ≤ 20 := by
  by_cases hn : messages.length < 3
  · simp [detectThreads, hn] at ht
  · simp only [detectThreads, if_neg hn] at ht
    rw [List.mem_map] at ht
    obtain ⟨tp, htp, rfl⟩ := ht
    have h1 := (detectThreadsFold_inv (sortByKey (fun m => m.timestamp) messages) w).1 tp htp
    rw [h1.2.2.2.2.1]
    exact h1.2.2.1

/-- Witness for C3 (amended): the 3-message thread of `carlMsgs`. -/
theorem C3_witness : carlThread.messageCount ≤ 20 :=
  C3_lookahead_cap_amended carlMsgs 120 carlThread (by with_unfolding_all decide)

/-- C3 counterexample: 21 messages share one timestamp, so every
look-ahead candidate is within the window, yet the single emitted thread
has 20 members (seed + 19 candidates), not 21 — the code examines at most
19 look-ahead positions, not 20 as claimed. -/
theorem C3_counterexample :
    sameInstantMsgs.length = 21 ∧
    (detectThreads sameInstantMsgs 120).map (fun t => t.messageCount) = [20] := by
  constructor
  · with_unfolding_all decide
  · with_unfolding_all decide

/-- C2 (amended): when a seed's gathered look-ahead group stays below 3
messages, no thread is emitted, but contrary to the claim the gathered
candidates ARE marked processed (the processed set grows by exactly the
gathered candidates), so they can no longer seed or join a later thread;
only never-gathered messages remain eligible (see
`C2_counterexample`). -/
theorem C2_abandoned_group_amended (sorted : List ChatMessage) (w : ℚ)
    (threads : List (ConversationThread × List ℕ)) (processed : List ℕ) (counter : ℕ)
    (i : ℕ) (startMsg : ChatMessage) (hip : i ∉ processed)
    (hio : sorted[i]? = some startMsg)
    (hsmall : (gatherCandidates sorted w startMsg.timestamp processed
        (List.range' (i + 1) (min sorted.length (i + 20) - (i + 1)))).length + 1 < 3) :
    detectThreadsStep sorted w (threads, processed, counter) i =
      (threads, processed ++ gatherCandidates sorted w startMsg.timestamp processed
        (List.range' (i + 1) (min sorted.length (i + 20) - (i + 1))), counter) := by
  have hneg : ¬(3 ≤ (i :: gatherCandidates sorted w startMsg.timestamp processed
      (List.range' (i + 1) (min sorted.length (i + 20) - (i + 1)))).length) := by
    simp only [List.length_cons]
    omega
  simp only [detectThreadsStep, if_neg hip, hio, if_neg hneg]

/-- Witness for C2 (amended): on `staleSeedMsgs` the seed at position 0
gathers only position 1 (110 s away), the group of two is abandoned, and
position 1 is left marked processed. -/
theorem C2_witness : detectThreadsStep staleSeedMsgs 120 ([], [], 0) 0 = ([], [1], 0) := by
  have h := C2_abandoned_group_amended staleSeedMsgs 120 [] [] 0 0
    (mkMsg "a" "A" 0 "hello there") (by decide) (by with_unfolding_all decide)
    (by with_unfolding_all decide)
  rw [h]
  with_unfolding_all decide

/-- C2 counterexample: on `staleSeedMsgs` the message at 110 s is
gathered into the first seed's abandoned 2-element group and stays
processed, so no thread at all is found — although the same last three
messages on their own (`staleSeedTail`) do form a thread.  Under the
claimed behaviour (gathered candidates of an unemitted group remain
eligible), the 110 s message would seed the B-C-D thread. -/
theorem C2_counterexample :
    detectThreads staleSeedMsgs 120 = [] ∧
    detectThreads staleSeedTail 120 =
      [⟨"thread-0", ["B", "C", "D"], 3, 110000, 160000, ["b", "c", "d"]⟩] := by
  constructor <;> with_unfolding_all decide

/-- Witness for C5: the single thread of `carlMsgs`. -/
theorem C5_witness :
    3 ≤ carlThread.messageCount ∧ carlThread.participants ≠ [] :=
  (C5_thread_invariants carlMsgs 120 (by with_unfolding_all decide)).1 carlThread
    (by with_unfolding_all decide)

/-- C9: with augmentation disabled, the orchestrator is a pure function
of the message list and the host identifier alone: the result does not
depend on whatever themes the external AI collaborator would have
returned (the disabled branch never reads them), so two runs on the same
input yield identical `EngagementAnalysis` values.  The embedding is
pure, mirroring the source, which copies before every sort and builds
fresh structures instead of mutating its input. -/
theorem C9_orchestrator_deterministic (messages : List ChatMessage)
    (hostIdentifier : Option String) (t1 t2 : List TopicCluster) :
    analyzeEngagement messages hostIdentifier false t1 =
      analyzeEngagement messages hostIdentifier false t2 := rfl

end Scrape
